import Mathlib

/-!
# Verification of the zone-coordination / single-active-playlist core

Shallow embedding of `handleSwitchSet` (and the accessory registry built by
`setupAccessories`) from `src/src/index.js` of
`homebridge-sonos-spotify-playlist`.  Playback is delegated to an external
HTTP API; we model each HTTP GET as an element of `ApiCall`, the outcome of
each call by an oracle `Env.oracle`, and the payload of `GET /zones` by
`Env.zonesData`.  The observable behaviour of one `handleSwitchSet` call is a
trace of events (characteristic `updateValue` notifications and HTTP GETs),
the mutated platform state, and an optional error.
-/

namespace SonosSpotify

/-! ## JavaScript string primitives

`String.prototype.split(',')`, `String.prototype.trim()` and
`encodeURIComponent`, re-embedded structurally so that the kernel can
evaluate them on concrete inputs. -/

/-- JS `s.split(sep)` on a single-character separator, over char lists.
`"".split(',') = [""]`, and separators at the ends produce empty fields. -/
def jsSplitAux (sep : Char) : List Char → List Char → List (List Char)
  | [], acc => [acc.reverse]
  | c :: rest, acc =>
    if c = sep then acc.reverse :: jsSplitAux sep rest []
    else jsSplitAux sep rest (c :: acc)

/-- JS `s.split(sep)` for a one-character separator. -/
def jsSplit (sep : Char) (s : String) : List String :=
  (jsSplitAux sep s.toList []).map fun cs => String.mk cs

/-- JS `s.trim()`: strip whitespace from both ends. -/
def jsTrim (s : String) : String :=
  String.mk (((s.toList.dropWhile Char.isWhitespace).reverse.dropWhile
    Char.isWhitespace).reverse)

/-- UTF-8 encoding of a code point, as a list of byte values. -/
def utf8Bytes (n : Nat) : List Nat :=
  if n < 128 then [n]
  else if n < 2048 then [192 + n / 64, 128 + n % 64]
  else if n < 65536 then [224 + n / 4096, 128 + (n / 64) % 64, 128 + n % 64]
  else [240 + n / 262144, 128 + (n / 4096) % 64, 128 + (n / 64) % 64, 128 + n % 64]

/-- Upper-case hexadecimal digit for `n < 16`. -/
def hexDigit (n : Nat) : Char :=
  if n < 10 then Char.ofNat (48 + n) else Char.ofNat (55 + n)

/-- `%XX` escape of one byte value. -/
def percentByte (b : Nat) : String :=
  String.mk [Char.ofNat 37, hexDigit (b / 16 % 16), hexDigit (b % 16)]

/-- Characters `encodeURIComponent` leaves unescaped:
`A-Z a-z 0-9 - _ . ! ~ * ' ( )`. -/
def uriUnreserved (c : Char) : Bool :=
  c.isAlpha || c.isDigit ||
    c = '-' || c = '_' || c = '.' || c = '!' || c = '~' || c = '*' ||
    c.toNat = 39 || c = '(' || c = ')'

/-- JS `encodeURIComponent`: unreserved characters pass through, every other
character is percent-encoded byte-by-byte in UTF-8. -/
def encodeURIComponent (s : String) : String :=
  String.join (s.toList.map fun c =>
    if uriUnreserved c then String.mk [c]
    else String.join ((utf8Bytes c.toNat).map percentByte))

/-! ## Data model -/

/-- One entry of `config.playlists`, after the destructuring
`const { name, Zones, SpotifyPlaylistID, shuffle = 'off', repeat = 'off' } = config`
in `handleSwitchSet`: `shuffle` and `repeatMode` hold the destructured values
(source field `repeat`), already defaulted to `"off"` when the config omits
them; `Zones` is `none` when the config has no `Zones` key. -/
structure PlaylistConfig where
  name : String
  Zones : Option String
  SpotifyPlaylistID : String
  shuffle : String := "off"
  repeatMode : String := "off"
deriving DecidableEq, Repr

/-- A registered switch accessory: its playlist config and the current value
of its `Characteristic.On` (`isOn`). -/
structure Accessory where
  config : PlaylistConfig
  isOn : Bool
deriving DecidableEq, Repr

/-- The platform's mutable state: `this.accessories` (in registration order)
and `this.activePlaylist`. -/
structure PlatformState where
  accessories : List Accessory
  activePlaylist : Option String
deriving DecidableEq, Repr

/-- `getActivePlaylist()`: the registry's current active playlist name. -/
def getActivePlaylist (st : PlatformState) : Option String :=
  st.activePlaylist

/-- The coordinator entry of one group in the `GET /zones` response:
the code reads `group.coordinator.roomName`. -/
structure ZoneCoordinatorInfo where
  roomName : String
deriving DecidableEq, Repr

/-- One group of the `GET /zones` response.  The code only reads
`coordinator.roomName`; `members` records the other room names the external
API reports for the group (never read by the code). -/
structure ZoneGroup where
  coordinator : ZoneCoordinatorInfo
  members : List String
deriving DecidableEq, Repr

/-- The HTTP GETs `handleSwitchSet` can issue against the external API,
one constructor per URL shape in the source (`repeatCall` embeds the
`/repeat/` endpoint). -/
inductive ApiCall where
  | join (room coordinator : String)
  | zones
  | spotifyNow (coordinator playlistId : String)
  | shuffle (coordinator mode : String)
  | repeatCall (coordinator mode : String)
  | pause (coordinator : String)
deriving DecidableEq, Repr

/-- The URL path appended to `apiUrl`, exactly as interpolated in the source:
room and coordinator segments go through `encodeURIComponent`, while the
playlist id, shuffle mode and repeat mode are interpolated verbatim. -/
def ApiCall.path : ApiCall → String
  | .join room coord => "/" ++ encodeURIComponent room ++ "/join/" ++ encodeURIComponent coord
  | .zones => "/zones"
  | .spotifyNow coord pid => "/" ++ encodeURIComponent coord ++ "/spotify/now/" ++ pid
  | .shuffle coord mode => "/" ++ encodeURIComponent coord ++ "/shuffle/" ++ mode
  | .repeatCall coord mode => "/" ++ encodeURIComponent coord ++ "/repeat/" ++ mode
  | .pause coord => "/" ++ encodeURIComponent coord ++ "/pause"

/-- The coordinator room a call addresses (`none` for `GET /zones`). -/
def ApiCall.targetCoordinator : ApiCall → Option String
  | .join _ c => some c
  | .zones => none
  | .spotifyNow c _ => some c
  | .shuffle c _ => some c
  | .repeatCall c _ => some c
  | .pause c => some c

/-- Observable events of one `handleSwitchSet` call, in order:
`updateValue j v` is `accessories[j]`'s `On` characteristic being written via
`updateValue` (the state-change notification to the host), `httpGet c` is an
HTTP GET issued to the external API. -/
inductive Event where
  | updateValue (idx : Nat) (value : Bool)
  | httpGet (call : ApiCall)
deriving DecidableEq, Repr

/-- Whether an event is an external HTTP call. -/
def Event.isHttp : Event → Bool
  | .httpGet _ => true
  | .updateValue _ _ => false

/-- The external API calls of a trace, in order. -/
def httpCalls (evs : List Event) : List ApiCall :=
  evs.filterMap fun e =>
    match e with
    | .httpGet c => some c
    | .updateValue _ _ => none

/-- The external world: whether each HTTP GET succeeds, and the
`response.data` that `GET /zones` returns when it succeeds. -/
structure Env where
  oracle : ApiCall → Bool
  zonesData : List ZoneGroup

/-- Errors surfaced by `setSwitch`: name not registered, or an HTTP call to
the external API failed (the axios rejection, tagged with the failed call). -/
inductive SwitchError where
  | UnknownSwitch
  | ExternalCallFailed (call : ApiCall)
deriving DecidableEq, Repr

/-- Result of one `handleSwitchSet`/`setSwitch` call: the event trace, the
platform state after whatever mutations happened (mutations persist even if a
later HTTP call throws), and the error if one propagated. -/
structure SetResult where
  events : List Event
  state : PlatformState
  error : Option SwitchError
deriving Repr

/-! ## The embedded program -/

/-- `const coordinator = Zones && Zones.split(',')[0] ? Zones.split(',')[0].trim() : 'Bedroom'`:
the first comma-field of `Zones`, trimmed, with `'Bedroom'` as the fallback
when `Zones` is absent, empty, or its first field is the empty string. -/
def coordinatorOf (zones : Option String) : String :=
  match zones with
  | none => "Bedroom"
  | some z =>
    if z = "" then "Bedroom"
    else
      match (jsSplit ',' z).head? with
      | none => "Bedroom"
      | some h => if h = "" then "Bedroom" else jsTrim h

/-- Issue a list of calls sequentially, stopping at the first failure
(each `await axios.get` in the source).  Returns the events actually issued
(the failing call included) and the failed call, if any. -/
def runCalls (env : Env) : List ApiCall → List Event × Option ApiCall
  | [] => ([], none)
  | c :: rest =>
    if env.oracle c then
      let r := runCalls env rest
      (Event.httpGet c :: r.1, r.2)
    else ([Event.httpGet c], some c)

/-- The three playback commands issued after grouping, in source order:
`/spotify/now/`, `/shuffle/`, `/repeat/`. -/
def playbackCalls (coordinator : String) (config : PlaylistConfig) : List ApiCall :=
  [ApiCall.spotifyNow coordinator config.SpotifyPlaylistID,
   ApiCall.shuffle coordinator config.shuffle,
   ApiCall.repeatCall coordinator config.repeatMode]

/-- The `updateValue(false)` notifications emitted by the loop over
`this.accessories` for every service other than `currentService`
(index `idx`), in accessory order. -/
def notifyOthers (n idx : Nat) : List Event :=
  (List.range n).filterMap fun j =>
    if j = idx then none else some (Event.updateValue j false)

/-- The effect of that same loop on the accessories' `On` values: every
accessory except index `idx` is set to off. -/
def flipOthers : List Accessory → Nat → List Accessory
  | [], _ => []
  | a :: rest, 0 => a :: rest.map fun b => { b with isOn := false }
  | a :: rest, Nat.succ k => { a with isOn := false } :: flipOthers rest k

/-- Write `v` to accessory `idx`'s `On` value, leaving the rest unchanged. -/
def setIsOn : List Accessory → Nat → Bool → List Accessory
  | [], _, _ => []
  | a :: rest, 0, v => { a with isOn := v } :: rest
  | a :: rest, Nat.succ k, v => a :: setIsOn rest k v

/-- The `else` arm of `if (Zones && Zones !== 'ALL')`: query `GET /zones`,
read each group's `coordinator.roomName`, and join every one that differs
from the coordinator, then issue the playback commands. -/
def allZonesActivate (env : Env) (notifs : List Event) (st1 : PlatformState)
    (coordinator : String) (config : PlaylistConfig) : SetResult :=
  if env.oracle ApiCall.zones then
    let rooms := env.zonesData.map fun g => g.coordinator.roomName
    let members := rooms.filter fun r => r ≠ coordinator
    let calls := (members.map fun zone => ApiCall.join zone coordinator)
      ++ playbackCalls coordinator config
    let r := runCalls env calls
    { events := notifs ++ Event.httpGet ApiCall.zones :: r.1,
      state := st1,
      error := r.2.map SwitchError.ExternalCallFailed }
  else
    { events := notifs ++ [Event.httpGet ApiCall.zones],
      state := st1,
      error := some (SwitchError.ExternalCallFailed ApiCall.zones) }

/-- `handleSwitchSet(config, value, currentService)` where `idx` is the index
of the accessory owning `currentService` and `config` is that accessory's
playlist config.  Traces the notifications and HTTP calls in program order;
the returned state reflects every mutation made before a failure
(in particular `this.activePlaylist = name` is assigned *before* the join
loop on activation). -/
def handleSwitchSet (env : Env) (st : PlatformState) (idx : Nat) (value : Bool) :
    SetResult :=
  match st.accessories[idx]? with
  | none => { events := [], state := st, error := some SwitchError.UnknownSwitch }
  | some acc =>
    let config := acc.config
    let coordinator := coordinatorOf config.Zones
    match value with
    | true =>
      let notifs := notifyOthers st.accessories.length idx
      let st1 : PlatformState :=
        { accessories := flipOthers st.accessories idx,
          activePlaylist := some config.name }
      match config.Zones with
      | some z =>
        if z ≠ "" ∧ z ≠ "ALL" then
          let zonesList := (jsSplit ',' z).map jsTrim
          let calls := ((zonesList.drop 1).map fun zone => ApiCall.join zone coordinator)
            ++ playbackCalls coordinator config
          let r := runCalls env calls
          { events := notifs ++ r.1,
            state := st1,
            error := r.2.map SwitchError.ExternalCallFailed }
        else allZonesActivate env notifs st1 coordinator config
      | none => allZonesActivate env notifs st1 coordinator config
    | false =>
      let c := ApiCall.pause coordinator
      if env.oracle c then
        { events := [Event.httpGet c],
          state := { st with activePlaylist := none },
          error := none }
      else
        { events := [Event.httpGet c],
          state := st,
          error := some (SwitchError.ExternalCallFailed c) }

/-- Modelled from the spec: the registry-level `setSwitch(name, on)` entry
point.  The host runtime dispatches a characteristic write to the `onSet`
handler registered (in `setupAccessories`) for the accessory of that name —
a name with no registered accessory has no handler, so nothing runs and no
external call is issued; the spec names this outcome `UnknownSwitch`.  When
the handler resolves without error the host stores the written value as the
characteristic's value (`isOn := value`); when it rejects, the write is not
confirmed and the target's own `isOn` is left unchanged.
`findSwitchIdx` is the host's dispatch table built by `setupAccessories`:
the index of the accessory registered under `name`, if any. -/
def findSwitchIdx (name : String) : List Accessory → Option Nat
  | [] => none
  | a :: rest =>
    if a.config.name == name then some 0
    else (findSwitchIdx name rest).map (· + 1)

def setSwitch (env : Env) (st : PlatformState) (name : String) (value : Bool) :
    SetResult :=
  match findSwitchIdx name st.accessories with
  | none => { events := [], state := st, error := some SwitchError.UnknownSwitch }
  | some idx =>
    let r := handleSwitchSet env st idx value
    match r.error with
    | some _ => r
    | none =>
      { r with state := { r.state with accessories := setIsOn r.state.accessories idx value } }

/-- Number of switches currently on. -/
def countOn (accs : List Accessory) : Nat :=
  (accs.filter fun a => a.isOn).length

/-- The single-active-playlist invariant: at most one switch is on. -/
def atMostOneOn (st : PlatformState) : Prop :=
  countOn st.accessories ≤ 1

instance : DecidablePred atMostOneOn := fun st =>
  inferInstanceAs (Decidable (countOn st.accessories ≤ 1))

/-- A sequence of `setSwitch` requests, executed in order; the state left by
each call (whether it succeeded or failed) is the input of the next. -/
def runSetSwitches : List (Env × String × Bool) → PlatformState → PlatformState
  | [], st => st
  | (env, name, value) :: rest, st =>
    runSetSwitches rest (setSwitch env st name value).state

/-! ## Spec-side definitions for the refinement claims

These two definitions follow the *spec's words* (not the source); they exist
only to be compared against the source-derived definitions above. -/

/-- Spec's wording of the URL contract ("path segments URL-encoded"): every
dynamic segment — room, coordinator, playlist id, shuffle mode, repeat mode —
goes through `encodeURIComponent`.  Compare with `ApiCall.path`. -/
def ApiCall.pathAllEncoded : ApiCall → String
  | .join room coord => "/" ++ encodeURIComponent room ++ "/join/" ++ encodeURIComponent coord
  | .zones => "/zones"
  | .spotifyNow coord pid => "/" ++ encodeURIComponent coord ++ "/spotify/now/" ++ encodeURIComponent pid
  | .shuffle coord mode => "/" ++ encodeURIComponent coord ++ "/shuffle/" ++ encodeURIComponent mode
  | .repeatCall coord mode => "/" ++ encodeURIComponent coord ++ "/repeat/" ++ encodeURIComponent mode
  | .pause coord => "/" ++ encodeURIComponent coord ++ "/pause"

/-- Spec's wording of the "ALL" membership rule: "members = every room whose
name ≠ coordinator", i.e. every room name occurring in the `GET /zones`
response (group coordinators and group members alike) other than the
coordinator.  Compare with the source, which reads only each group's
`coordinator.roomName`. -/
def membersPerClaim (groups : List ZoneGroup) (coordinator : String) : List String :=
  (groups.flatMap fun g => g.coordinator.roomName :: g.members).filter
    fun r => r ≠ coordinator

/-- The join calls of a trace, in order. -/
def joinCallsOf (evs : List Event) : List ApiCall :=
  (httpCalls evs).filter fun c =>
    match c with
    | .join _ _ => true
    | _ => false

/-! ## Helper lemmas -/

theorem findSwitchIdx_some {name : String} {l : List Accessory} {idx : Nat}
    (hf : findSwitchIdx name l = some idx) :
    ∃ a, l[idx]? = some a ∧ (a.config.name == name) = true := by
  induction l generalizing idx with
  | nil => simp [findSwitchIdx] at hf
  | cons a rest ih =>
    by_cases h : (a.config.name == name) = true
    · simp [findSwitchIdx, h] at hf
      exact hf ▸ ⟨a, by simp, h⟩
    · simp [findSwitchIdx, h] at hf
      obtain ⟨k, hk, rfl⟩ := hf
      obtain ⟨b, hb, hbn⟩ := ih hk
      exact ⟨b, by simpa using hb, hbn⟩

theorem findSwitchIdx_none {name : String} {l : List Accessory}
    (h : ∀ a ∈ l, (a.config.name == name) = false) :
    findSwitchIdx name l = none := by
  induction l with
  | nil => rfl
  | cons a rest ih =>
    simp [findSwitchIdx, h a (by simp),
      ih fun b hb => h b (by simp [hb])]

theorem runCalls_all_ok (env : Env) (calls : List ApiCall)
    (h : ∀ c ∈ calls, env.oracle c = true) :
    runCalls env calls = (calls.map Event.httpGet, none) := by
  induction calls with
  | nil => rfl
  | cons c rest ih =>
    simp [runCalls, h c (by simp), ih fun x hx => h x (by simp [hx])]

theorem runCalls_fail (env : Env) (pre : List ApiCall) (c : ApiCall) (post : List ApiCall)
    (h : ∀ x ∈ pre, env.oracle x = true) (hc : env.oracle c = false) :
    runCalls env (pre ++ c :: post) = ((pre ++ [c]).map Event.httpGet, some c) := by
  induction pre with
  | nil => simp [runCalls, hc]
  | cons a pre ih =>
    simp [runCalls, h a (by simp), ih fun x hx => h x (by simp [hx])]

theorem runCalls_events_mem (env : Env) (calls : List ApiCall) (e : Event)
    (he : e ∈ (runCalls env calls).1) :
    ∃ c ∈ calls, e = Event.httpGet c := by
  induction calls with
  | nil => simp [runCalls] at he
  | cons c rest ih =>
    by_cases h : env.oracle c
    · simp only [runCalls, if_pos h, List.mem_cons] at he
      rcases he with rfl | he
      · exact ⟨c, by simp, rfl⟩
      · obtain ⟨d, hd, rfl⟩ := ih he
        exact ⟨d, by simp [hd], rfl⟩
    · simp only [runCalls, if_neg h, List.mem_singleton] at he
      exact ⟨c, by simp, he⟩

theorem runCalls_events_http (env : Env) (calls : List ApiCall) (e : Event)
    (he : e ∈ (runCalls env calls).1) : e.isHttp = true := by
  obtain ⟨c, -, rfl⟩ := runCalls_events_mem env calls e he
  rfl

theorem httpCalls_append (a b : List Event) :
    httpCalls (a ++ b) = httpCalls a ++ httpCalls b :=
  List.filterMap_append a b _

theorem httpCalls_map_httpGet (cs : List ApiCall) :
    httpCalls (cs.map Event.httpGet) = cs := by
  induction cs with
  | nil => rfl
  | cons c rest ih => simp [httpCalls] at ih ⊢; exact ih

theorem httpCalls_notifyOthers (n idx : Nat) :
    httpCalls (notifyOthers n idx) = [] := by
  simp only [httpCalls, notifyOthers, List.filterMap_filterMap]
  rw [List.filterMap_eq_nil_iff]
  intro j hj
  by_cases h : j = idx <;> simp [h]

theorem notifyOthers_not_http (n idx : Nat) :
    ∀ e ∈ notifyOthers n idx, e.isHttp = false := by
  intro e he
  simp only [notifyOthers, List.mem_filterMap, List.mem_range] at he
  obtain ⟨j, -, hj⟩ := he
  by_cases h : j = idx
  · simp [h] at hj
  · simp only [if_neg h, Option.some.injEq] at hj
    exact hj ▸ rfl

theorem updateValue_mem_notifyOthers {n idx j : Nat} (hlt : j < n) (hne : j ≠ idx) :
    Event.updateValue j false ∈ notifyOthers n idx := by
  simp only [notifyOthers, List.mem_filterMap, List.mem_range]
  exact ⟨j, hlt, by simp [hne]⟩

theorem countOn_cons (a : Accessory) (l : List Accessory) :
    countOn (a :: l) = (if a.isOn then 1 else 0) + countOn l := by
  by_cases h : a.isOn <;>
    simp [countOn, List.filter_cons, h, Nat.add_comm]

theorem countOn_map_off (l : List Accessory) :
    countOn (l.map fun b => { b with isOn := false }) = 0 := by
  induction l with
  | nil => rfl
  | cons a l ih =>
    simp only [List.map_cons, countOn_cons, if_neg Bool.false_ne_true, Nat.zero_add]
    exact ih

theorem countOn_flipOthers (l : List Accessory) (idx : Nat) :
    countOn (flipOthers l idx) ≤ 1 := by
  induction l generalizing idx with
  | nil => simp [flipOthers, countOn]
  | cons a l ih =>
    cases idx with
    | zero =>
      simp only [flipOthers, countOn_cons, countOn_map_off]
      by_cases h : a.isOn <;> simp [h]
    | succ k =>
      simp only [flipOthers, countOn_cons]
      simp only [Nat.zero_add, if_neg Bool.false_ne_true]
      exact ih k

theorem countOn_setIsOn_flipOthers (l : List Accessory) (idx : Nat) (v : Bool) :
    countOn (setIsOn (flipOthers l idx) idx v) ≤ 1 := by
  induction l generalizing idx with
  | nil => simp [flipOthers, setIsOn, countOn]
  | cons a l ih =>
    cases idx with
    | zero =>
      simp only [flipOthers, setIsOn, countOn_cons, countOn_map_off]
      by_cases h : v <;> simp [h]
    | succ k =>
      simpa [flipOthers, setIsOn, countOn_cons] using ih k

theorem countOn_setIsOn_false_le (l : List Accessory) (idx : Nat) :
    countOn (setIsOn l idx false) ≤ countOn l := by
  induction l generalizing idx with
  | nil => simp [setIsOn]
  | cons a l ih =>
    cases idx with
    | zero =>
      simp only [setIsOn, countOn_cons]
      by_cases h : a.isOn <;> simp [h]
    | succ k =>
      simp only [setIsOn, countOn_cons]
      exact Nat.add_le_add_left (ih k) _

theorem setIsOn_getElem?_ne (l : List Accessory) (idx : Nat) (v : Bool) (j : Nat)
    (h : j ≠ idx) : (setIsOn l idx v)[j]? = l[j]? := by
  induction l generalizing idx j with
  | nil => simp [setIsOn]
  | cons a l ih =>
    cases idx with
    | zero =>
      cases j with
      | zero => exact absurd rfl h
      | succ m => simp [setIsOn]
    | succ k =>
      cases j with
      | zero => simp [setIsOn]
      | succ m =>
        simpa [setIsOn] using ih k m fun hmk => h (by simp [hmk])

theorem flipOthers_getElem?_ne (l : List Accessory) (idx : Nat) (j : Nat)
    (h : j ≠ idx) :
    (flipOthers l idx)[j]? = l[j]?.map fun a => { a with isOn := false } := by
  induction l generalizing idx j with
  | nil => simp [flipOthers]
  | cons a l ih =>
    cases idx with
    | zero =>
      cases j with
      | zero => exact absurd rfl h
      | succ m => simp [flipOthers]
    | succ k =>
      cases j with
      | zero => simp [flipOthers]
      | succ m =>
        simpa [flipOthers] using ih k m fun hmk => h (by simp [hmk])

/-! ## Branch equations for `handleSwitchSet` and `setSwitch` -/

theorem handleSwitchSet_true_state (env : Env) (st : PlatformState) (idx : Nat)
    (acc : Accessory) (ha : st.accessories[idx]? = some acc) :
    (handleSwitchSet env st idx true).state =
      { accessories := flipOthers st.accessories idx,
        activePlaylist := some acc.config.name } := by
  simp only [handleSwitchSet, ha]
  cases hz : acc.config.Zones with
  | none => simp only [allZonesActivate]; split <;> rfl
  | some z =>
    by_cases h1 : z ≠ "" ∧ z ≠ "ALL"
    · simp only [if_pos h1]
    · simp only [if_neg h1, allZonesActivate]; split <;> rfl

theorem handleSwitchSet_true_events_shape (env : Env) (st : PlatformState) (idx : Nat)
    (acc : Accessory) (ha : st.accessories[idx]? = some acc) :
    ∃ post, (handleSwitchSet env st idx true).events =
        notifyOthers st.accessories.length idx ++ post ∧
      ∀ e ∈ post, e.isHttp = true := by
  simp only [handleSwitchSet, ha]
  cases hz : acc.config.Zones with
  | none =>
    simp only [allZonesActivate]
    split
    · exact ⟨_, rfl, by
        intro e he
        simp only [List.mem_cons] at he
        rcases he with rfl | he
        · rfl
        · exact runCalls_events_http env _ e he⟩
    · exact ⟨_, rfl, by intro e he; simp only [List.mem_singleton] at he; exact he ▸ rfl⟩
  | some z =>
    by_cases h1 : z ≠ "" ∧ z ≠ "ALL"
    · simp only [if_pos h1]
      exact ⟨_, rfl, fun e he => runCalls_events_http env _ e he⟩
    · simp only [if_neg h1, allZonesActivate]
      split
      · exact ⟨_, rfl, by
          intro e he
          simp only [List.mem_cons] at he
          rcases he with rfl | he
          · rfl
          · exact runCalls_events_http env _ e he⟩
      · exact ⟨_, rfl, by intro e he; simp only [List.mem_singleton] at he; exact he ▸ rfl⟩

theorem handleSwitchSet_explicit_eq (env : Env) (st : PlatformState) (idx : Nat)
    (acc : Accessory) (z : String) (ha : st.accessories[idx]? = some acc)
    (hz : acc.config.Zones = some z) (h1 : z ≠ "") (h2 : z ≠ "ALL") :
    handleSwitchSet env st idx true =
      let coordinator := coordinatorOf acc.config.Zones
      let calls := ((((jsSplit ',' z).map jsTrim).drop 1).map
          fun zone => ApiCall.join zone coordinator) ++ playbackCalls coordinator acc.config
      { events := notifyOthers st.accessories.length idx ++ (runCalls env calls).1,
        state := { accessories := flipOthers st.accessories idx,
                   activePlaylist := some acc.config.name },
        error := (runCalls env calls).2.map SwitchError.ExternalCallFailed } := by
  simp only [handleSwitchSet, ha, hz, if_pos (And.intro h1 h2)]

theorem handleSwitchSet_all_eq (env : Env) (st : PlatformState) (idx : Nat)
    (acc : Accessory) (ha : st.accessories[idx]? = some acc)
    (hz : acc.config.Zones = none ∨ acc.config.Zones = some "" ∨
      acc.config.Zones = some "ALL") :
    handleSwitchSet env st idx true =
      allZonesActivate env (notifyOthers st.accessories.length idx)
        { accessories := flipOthers st.accessories idx,
          activePlaylist := some acc.config.name }
        (coordinatorOf acc.config.Zones) acc.config := by
  rcases hz with hz | hz | hz
  · simp only [handleSwitchSet, ha, hz]
  · simp only [handleSwitchSet, ha, hz]
    rw [if_neg]
    simp
  · simp only [handleSwitchSet, ha, hz]
    rw [if_neg]
    simp

theorem handleSwitchSet_false_eq (env : Env) (st : PlatformState) (idx : Nat)
    (acc : Accessory) (ha : st.accessories[idx]? = some acc) :
    handleSwitchSet env st idx false =
      let c := ApiCall.pause (coordinatorOf acc.config.Zones)
      if env.oracle c then
        { events := [Event.httpGet c],
          state := { st with activePlaylist := none },
          error := none }
      else
        { events := [Event.httpGet c],
          state := st,
          error := some (SwitchError.ExternalCallFailed c) } := by
  simp only [handleSwitchSet, ha]

theorem setSwitch_eq_of_found (env : Env) (st : PlatformState) (name : String)
    (value : Bool) (idx : Nat) (hf : findSwitchIdx name st.accessories = some idx) :
    setSwitch env st name value =
      let r := handleSwitchSet env st idx value
      match r.error with
      | some _ => r
      | none =>
        { r with state :=
            { r.state with accessories := setIsOn r.state.accessories idx value } } := by
  simp only [setSwitch, hf]

theorem setSwitch_events_eq (env : Env) (st : PlatformState) (name : String)
    (value : Bool) (idx : Nat) (hf : findSwitchIdx name st.accessories = some idx) :
    (setSwitch env st name value).events = (handleSwitchSet env st idx value).events := by
  rw [setSwitch_eq_of_found env st name value idx hf]
  cases h : (handleSwitchSet env st idx value).error <;> simp [h]

theorem setSwitch_error_eq (env : Env) (st : PlatformState) (name : String)
    (value : Bool) (idx : Nat) (hf : findSwitchIdx name st.accessories = some idx) :
    (setSwitch env st name value).error = (handleSwitchSet env st idx value).error := by
  rw [setSwitch_eq_of_found env st name value idx hf]
  cases h : (handleSwitchSet env st idx value).error <;> simp [h]

theorem setSwitch_activePlaylist_eq (env : Env) (st : PlatformState) (name : String)
    (value : Bool) (idx : Nat) (hf : findSwitchIdx name st.accessories = some idx) :
    (setSwitch env st name value).state.activePlaylist =
      (handleSwitchSet env st idx value).state.activePlaylist := by
  rw [setSwitch_eq_of_found env st name value idx hf]
  cases h : (handleSwitchSet env st idx value).error <;> simp [h]

theorem setSwitch_state_cases (env : Env) (st : PlatformState) (name : String)
    (value : Bool) (idx : Nat) (hf : findSwitchIdx name st.accessories = some idx) :
    (setSwitch env st name value).state = (handleSwitchSet env st idx value).state ∧
      (handleSwitchSet env st idx value).error ≠ none ∨
    (setSwitch env st name value).state =
        { (handleSwitchSet env st idx value).state with
          accessories := setIsOn (handleSwitchSet env st idx value).state.accessories idx value } ∧
      (handleSwitchSet env st idx value).error = none := by
  rw [setSwitch_eq_of_found env st name value idx hf]
  cases h : (handleSwitchSet env st idx value).error with
  | none => exact Or.inr ⟨by simp [h], rfl⟩
  | some e => exact Or.inl ⟨by simp [h], by simp [h]⟩

theorem handleSwitchSet_false_events (env : Env) (st : PlatformState) (idx : Nat)
    (acc : Accessory) (ha : st.accessories[idx]? = some acc) :
    (handleSwitchSet env st idx false).events =
      [Event.httpGet (ApiCall.pause (coordinatorOf acc.config.Zones))] := by
  rw [handleSwitchSet_false_eq env st idx acc ha]
  by_cases hp : env.oracle (ApiCall.pause (coordinatorOf acc.config.Zones)) = true <;>
    simp [hp]

theorem handleSwitchSet_false_accessories (env : Env) (st : PlatformState) (idx : Nat)
    (acc : Accessory) (ha : st.accessories[idx]? = some acc) :
    (handleSwitchSet env st idx false).state.accessories = st.accessories := by
  rw [handleSwitchSet_false_eq env st idx acc ha]
  by_cases hp : env.oracle (ApiCall.pause (coordinatorOf acc.config.Zones)) = true <;>
    simp [hp]

theorem mem_httpCalls {c : ApiCall} {evs : List Event} :
    c ∈ httpCalls evs ↔ Event.httpGet c ∈ evs := by
  simp only [httpCalls, List.mem_filterMap]
  constructor
  · rintro ⟨e, he, hfe⟩
    cases e with
    | httpGet d => simp only [Option.some.injEq] at hfe; exact hfe ▸ he
    | updateValue _ _ => simp at hfe
  · intro h
    exact ⟨Event.httpGet c, h, rfl⟩

theorem playbackCalls_target (coordinator : String) (config : PlaylistConfig) :
    ∀ c ∈ playbackCalls coordinator config, c.targetCoordinator = some coordinator := by
  intro c hc
  simp only [playbackCalls, List.mem_cons, List.mem_singleton] at hc
  rcases hc with rfl | rfl | rfl | h
  · rfl
  · rfl
  · rfl
  · simp at h

theorem join_calls_target (coordinator : String) (members : List String) :
    ∀ c ∈ members.map fun zone => ApiCall.join zone coordinator,
      c.targetCoordinator = some coordinator := by
  intro c hc
  simp only [List.mem_map] at hc
  obtain ⟨zone, -, rfl⟩ := hc
  rfl

/-! ## Concrete fixtures for witnesses and counterexamples -/

def cfgA : PlaylistConfig :=
  { name := "A", Zones := some "Bedroom,Kitchen,Office", SpotifyPlaylistID := "pid1" }

def cfgB : PlaylistConfig :=
  { name := "B", Zones := none, SpotifyPlaylistID := "pid2" }

def cfgMy : PlaylistConfig :=
  { name := "MyList", Zones := some "Bedroom,Kitchen,Office,Den",
    SpotifyPlaylistID := "pid3" }

/-- Environment in which every external call succeeds; `/zones` reports two
single-room groups coordinated by `Bedroom` and `Office`. -/
def envAllOk : Env :=
  { oracle := fun _ => true,
    zonesData := [{ coordinator := { roomName := "Bedroom" }, members := [] },
                  { coordinator := { roomName := "Office" }, members := [] }] }

/-- Environment in which exactly the join of `Office` into `Bedroom` fails. -/
def envJoinOfficeFails : Env :=
  { oracle := fun c => if c = ApiCall.join "Office" "Bedroom" then false else true,
    zonesData := [] }

/-- Environment whose `/zones` response has one group coordinated by
`Bedroom` that also contains the member room `Den`. -/
def envDen : Env :=
  { oracle := fun _ => true,
    zonesData := [{ coordinator := { roomName := "Bedroom" }, members := ["Den"] }] }

def stAB : PlatformState :=
  { accessories := [{ config := cfgA, isOn := false }, { config := cfgB, isOn := false }],
    activePlaylist := none }

def stMy : PlatformState :=
  { accessories := [{ config := cfgMy, isOn := false }], activePlaylist := none }

def stBActive : PlatformState :=
  { accessories := [{ config := cfgA, isOn := false }, { config := cfgB, isOn := true }],
    activePlaylist := some "B" }

/-! ## Claim theorems -/

theorem setSwitch_preserves_atMostOneOn (env : Env) (st : PlatformState)
    (name : String) (value : Bool) (h : atMostOneOn st) :
    atMostOneOn (setSwitch env st name value).state := by
  cases hf : findSwitchIdx name st.accessories with
  | none => simpa [setSwitch, hf] using h
  | some idx =>
    obtain ⟨acc, ha, -⟩ := findSwitchIdx_some hf
    rcases setSwitch_state_cases env st name value idx hf with ⟨hs, -⟩ | ⟨hs, -⟩
    · cases value with
      | true =>
        have haccs : (setSwitch env st name true).state.accessories =
            flipOthers st.accessories idx := by
          rw [hs, handleSwitchSet_true_state env st idx acc ha]
        unfold atMostOneOn
        rw [haccs]
        exact countOn_flipOthers _ _
      | false =>
        have haccs : (setSwitch env st name false).state.accessories =
            st.accessories := by
          rw [hs, handleSwitchSet_false_accessories env st idx acc ha]
        unfold atMostOneOn
        rw [haccs]
        exact h
    · cases value with
      | true =>
        have haccs : (setSwitch env st name true).state.accessories =
            setIsOn (flipOthers st.accessories idx) idx true := by
          rw [hs, handleSwitchSet_true_state env st idx acc ha]
        unfold atMostOneOn
        rw [haccs]
        exact countOn_setIsOn_flipOthers _ _ _
      | false =>
        have haccs : (setSwitch env st name false).state.accessories =
            setIsOn st.accessories idx false := by
          rw [hs, handleSwitchSet_false_accessories env st idx acc ha]
        unfold atMostOneOn
        rw [haccs]
        exact le_trans (countOn_setIsOn_false_le _ _) h

/-- C1: for every sequence of `setSwitch` (`handleSwitchSet`) calls, starting
from any state with at most one switch on, at most one playlist switch has
`isOn = true` after each call — activating a switch first sets every other
switch's `On` characteristic to false, so two switches are never
simultaneously on after a completed call (instantiating the request list at
each prefix gives the invariant after every intermediate call, successful
ones included). -/
theorem c1_at_most_one_switch_on (reqs : List (Env × String × Bool))
    (st : PlatformState) (h : atMostOneOn st) :
    atMostOneOn (runSetSwitches reqs st) := by
  induction reqs generalizing st with
  | nil => exact h
  | cons r rest ih =>
    obtain ⟨env, name, value⟩ := r
    exact ih _ (setSwitch_preserves_atMostOneOn env st name value h)

theorem c1_at_most_one_switch_on_witness :
    atMostOneOn stAB ∧
    atMostOneOn (runSetSwitches
      [(envAllOk, "A", true), (envAllOk, "B", true), (envAllOk, "A", false)] stAB) :=
  ⟨by decide, c1_at_most_one_switch_on _ stAB (by decide)⟩

/-- C3: calling `setSwitch` with a name registered for no accessory fails
with `UnknownSwitch` and issues zero external HTTP calls (the trace is
empty and the state is untouched). -/
theorem c3_unknown_switch (env : Env) (st : PlatformState) (name : String)
    (value : Bool) (h : ∀ a ∈ st.accessories, (a.config.name == name) = false) :
    setSwitch env st name value =
      { events := [], state := st, error := some SwitchError.UnknownSwitch } ∧
    httpCalls (setSwitch env st name value).events = [] := by
  have hf := findSwitchIdx_none h
  constructor
  · simp [setSwitch, hf]
  · simp [setSwitch, hf, httpCalls]

theorem c3_unknown_switch_witness :
    (∀ a ∈ stAB.accessories, (a.config.name == "Nope") = false) ∧
    (setSwitch envAllOk stAB "Nope" true =
      { events := [], state := stAB, error := some SwitchError.UnknownSwitch } ∧
    httpCalls (setSwitch envAllOk stAB "Nope" true).events = []) :=
  ⟨by decide, c3_unknown_switch envAllOk stAB "Nope" true (by decide)⟩

/-- C7: deactivating a switch issues exactly one external call — pause on
that switch's coordinator, no join/source/shuffle/repeat — and on success of
that pause sets `activePlaylist` to `none`, while on pause failure
`activePlaylist` is left unchanged (and the error propagates). -/
theorem c7_deactivate_single_pause (env : Env) (st : PlatformState)
    (name : String) (idx : Nat) (acc : Accessory)
    (hf : findSwitchIdx name st.accessories = some idx)
    (ha : st.accessories[idx]? = some acc) :
    (setSwitch env st name false).events =
      [Event.httpGet (ApiCall.pause (coordinatorOf acc.config.Zones))] ∧
    (env.oracle (ApiCall.pause (coordinatorOf acc.config.Zones)) = true →
      (setSwitch env st name false).error = none ∧
      (setSwitch env st name false).state.activePlaylist = none) ∧
    (env.oracle (ApiCall.pause (coordinatorOf acc.config.Zones)) = false →
      (setSwitch env st name false).error =
        some (SwitchError.ExternalCallFailed
          (ApiCall.pause (coordinatorOf acc.config.Zones))) ∧
      (setSwitch env st name false).state.activePlaylist = st.activePlaylist) := by
  have hev := setSwitch_events_eq env st name false idx hf
  have herr := setSwitch_error_eq env st name false idx hf
  have hap := setSwitch_activePlaylist_eq env st name false idx hf
  refine ⟨?_, fun hp => ⟨?_, ?_⟩, fun hp => ⟨?_, ?_⟩⟩
  · rw [hev, handleSwitchSet_false_events env st idx acc ha]
  · rw [herr, handleSwitchSet_false_eq env st idx acc ha]
    simp [hp]
  · rw [hap, handleSwitchSet_false_eq env st idx acc ha]
    simp [hp]
  · rw [herr, handleSwitchSet_false_eq env st idx acc ha]
    simp [hp]
  · rw [hap, handleSwitchSet_false_eq env st idx acc ha]
    simp [hp]

theorem c7_deactivate_single_pause_witness :
    findSwitchIdx "A" stAB.accessories = some 0 ∧
    stAB.accessories[0]? = some { config := cfgA, isOn := false } ∧
    ((setSwitch envAllOk stAB "A" false).events =
      [Event.httpGet (ApiCall.pause (coordinatorOf cfgA.Zones))] ∧
    (envAllOk.oracle (ApiCall.pause (coordinatorOf cfgA.Zones)) = true →
      (setSwitch envAllOk stAB "A" false).error = none ∧
      (setSwitch envAllOk stAB "A" false).state.activePlaylist = none) ∧
    (envAllOk.oracle (ApiCall.pause (coordinatorOf cfgA.Zones)) = false →
      (setSwitch envAllOk stAB "A" false).error =
        some (SwitchError.ExternalCallFailed
          (ApiCall.pause (coordinatorOf cfgA.Zones))) ∧
      (setSwitch envAllOk stAB "A" false).state.activePlaylist =
        stAB.activePlaylist)) :=
  ⟨by decide, by decide,
    c7_deactivate_single_pause envAllOk stAB "A" 0 { config := cfgA, isOn := false }
      (by decide) (by decide)⟩

/-- C10: deactivation does not check which playlist is active — for any
registered switch, `setSwitch name false` (with the pause succeeding) issues
the pause on that switch's own coordinator, sets `activePlaylist` to `none`
even when a different switch's playlist is the active one, and leaves every
other accessory's entry (in particular its `isOn`) untouched. -/
theorem c10_deactivation_ignores_active (env : Env) (st : PlatformState)
    (name : String) (idx : Nat) (acc : Accessory)
    (hf : findSwitchIdx name st.accessories = some idx)
    (ha : st.accessories[idx]? = some acc)
    (hp : env.oracle (ApiCall.pause (coordinatorOf acc.config.Zones)) = true) :
    httpCalls (setSwitch env st name false).events =
      [ApiCall.pause (coordinatorOf acc.config.Zones)] ∧
    getActivePlaylist (setSwitch env st name false).state = none ∧
    ∀ j, j ≠ idx →
      (setSwitch env st name false).state.accessories[j]? = st.accessories[j]? := by
  have herr_none : (handleSwitchSet env st idx false).error = none := by
    rw [handleSwitchSet_false_eq env st idx acc ha]
    simp [hp]
  refine ⟨?_, ?_, ?_⟩
  · rw [setSwitch_events_eq env st name false idx hf,
      handleSwitchSet_false_events env st idx acc ha]
    rfl
  · simp only [getActivePlaylist]
    rw [setSwitch_activePlaylist_eq env st name false idx hf,
      handleSwitchSet_false_eq env st idx acc ha]
    simp [hp]
  · intro j hne
    rcases setSwitch_state_cases env st name false idx hf with ⟨-, hne'⟩ | ⟨hs, -⟩
    · exact absurd herr_none hne'
    · rw [hs]
      show (setIsOn (handleSwitchSet env st idx false).state.accessories idx false)[j]? = _
      rw [setIsOn_getElem?_ne _ _ _ _ hne,
        handleSwitchSet_false_accessories env st idx acc ha]

theorem c10_deactivation_ignores_active_witness :
    findSwitchIdx "A" stBActive.accessories = some 0 ∧
    stBActive.accessories[0]? = some { config := cfgA, isOn := false } ∧
    getActivePlaylist stBActive = some "B" ∧
    stBActive.accessories[1]? = some { config := cfgB, isOn := true } ∧
    (httpCalls (setSwitch envAllOk stBActive "A" false).events =
      [ApiCall.pause (coordinatorOf cfgA.Zones)] ∧
    getActivePlaylist (setSwitch envAllOk stBActive "A" false).state = none ∧
    ∀ j, j ≠ 0 →
      (setSwitch envAllOk stBActive "A" false).state.accessories[j]? =
        stBActive.accessories[j]?) :=
  ⟨by decide, by decide, by decide, by decide,
    c10_deactivation_ignores_active envAllOk stBActive "A" 0
      { config := cfgA, isOn := false } (by decide) (by decide) (by decide)⟩

/-- C4: activating a switch whose explicit non-ALL zones spec splits (on
commas, trimmed) into coordinator and members issues exactly, in order, one
join per member of `zones[1:]` in list order (duplicates as-is, each awaited
before the next), followed by the three playback commands in fixed order
source, shuffle, repeat on the coordinator — and no other calls.  For
`"Bedroom,Kitchen,Office"` this is join Kitchen→Bedroom, join Office→Bedroom,
then source/shuffle/repeat on Bedroom (see the witness). -/
theorem c4_explicit_activation_calls (env : Env) (st : PlatformState)
    (name : String) (idx : Nat) (acc : Accessory) (z : String)
    (hf : findSwitchIdx name st.accessories = some idx)
    (ha : st.accessories[idx]? = some acc)
    (hz : acc.config.Zones = some z) (h1 : z ≠ "") (h2 : z ≠ "ALL")
    (hok : ∀ c, env.oracle c = true) :
    httpCalls (setSwitch env st name true).events =
      ((((jsSplit ',' z).map jsTrim).drop 1).map
        fun zone => ApiCall.join zone (coordinatorOf acc.config.Zones)) ++
      [ApiCall.spotifyNow (coordinatorOf acc.config.Zones) acc.config.SpotifyPlaylistID,
       ApiCall.shuffle (coordinatorOf acc.config.Zones) acc.config.shuffle,
       ApiCall.repeatCall (coordinatorOf acc.config.Zones) acc.config.repeatMode] ∧
    (setSwitch env st name true).error = none := by
  have heq := handleSwitchSet_explicit_eq env st idx acc z ha hz h1 h2
  have hrun := runCalls_all_ok env
    (((((jsSplit ',' z).map jsTrim).drop 1).map
        fun zone => ApiCall.join zone (coordinatorOf acc.config.Zones)) ++
      playbackCalls (coordinatorOf acc.config.Zones) acc.config)
    (fun c _ => hok c)
  constructor
  · rw [setSwitch_events_eq env st name true idx hf, heq]
    simp only [hrun]
    rw [httpCalls_append, httpCalls_notifyOthers, httpCalls_map_httpGet]
    simp [playbackCalls]
  · rw [setSwitch_error_eq env st name true idx hf, heq]
    simp only [hrun]
    rfl

theorem c4_explicit_activation_calls_witness :
    findSwitchIdx "A" stAB.accessories = some 0 ∧
    stAB.accessories[0]? = some { config := cfgA, isOn := false } ∧
    cfgA.Zones = some "Bedroom,Kitchen,Office" ∧
    coordinatorOf cfgA.Zones = "Bedroom" ∧
    httpCalls (setSwitch envAllOk stAB "A" true).events =
      [ApiCall.join "Kitchen" "Bedroom", ApiCall.join "Office" "Bedroom",
       ApiCall.spotifyNow "Bedroom" "pid1", ApiCall.shuffle "Bedroom" "off",
       ApiCall.repeatCall "Bedroom" "off"] ∧
    (setSwitch envAllOk stAB "A" true).error = none := by
  refine ⟨by decide, by decide, by decide, by decide, ?_⟩
  have h := c4_explicit_activation_calls envAllOk stAB "A" 0
    { config := cfgA, isOn := false } "Bedroom,Kitchen,Office"
    (by decide) (by decide) (by decide) (by decide) (by decide)
    (fun c => rfl)
  refine ⟨?_, h.2⟩
  rw [h.1]
  decide

/-- C2 counterexample: with three member rooms `Kitchen`, `Office`, `Den`
and the second join (`Office→Bedroom`) failing, no playback call is issued
and the error propagates — but `activePlaylist` *is* recorded as the
switch's name, refuting the claim's "the switch is not marked active". -/
theorem c2_counterexample :
    httpCalls (setSwitch envJoinOfficeFails stMy "MyList" true).events =
      [ApiCall.join "Kitchen" "Bedroom", ApiCall.join "Office" "Bedroom"] ∧
    (setSwitch envJoinOfficeFails stMy "MyList" true).error =
      some (SwitchError.ExternalCallFailed (ApiCall.join "Office" "Bedroom")) ∧
    getActivePlaylist (setSwitch envJoinOfficeFails stMy "MyList" true).state =
      some "MyList" := by
  decide

/-- C2 (amended): if the join for member `m` fails after the joins of the
members before it succeeded, the failing join is the last call issued — no
further join and no playback (source/shuffle/repeat) call follows — and the
error propagates to the caller of `setSwitch`; however the switch *is*
already marked active: `activePlaylist` was assigned the switch's name
before the join loop, and keeps it. -/
theorem c2_join_failure_fail_fast (env : Env) (st : PlatformState)
    (name : String) (idx : Nat) (acc : Accessory) (z : String)
    (pre : List String) (m : String) (post : List String)
    (hf : findSwitchIdx name st.accessories = some idx)
    (ha : st.accessories[idx]? = some acc)
    (hz : acc.config.Zones = some z) (h1 : z ≠ "") (h2 : z ≠ "ALL")
    (hmem : ((jsSplit ',' z).map jsTrim).drop 1 = pre ++ m :: post)
    (hpre : ∀ r ∈ pre, env.oracle (ApiCall.join r (coordinatorOf acc.config.Zones)) = true)
    (hm : env.oracle (ApiCall.join m (coordinatorOf acc.config.Zones)) = false) :
    httpCalls (setSwitch env st name true).events =
      (pre.map fun r => ApiCall.join r (coordinatorOf acc.config.Zones)) ++
        [ApiCall.join m (coordinatorOf acc.config.Zones)] ∧
    (setSwitch env st name true).error =
      some (SwitchError.ExternalCallFailed
        (ApiCall.join m (coordinatorOf acc.config.Zones))) ∧
    (setSwitch env st name true).state.activePlaylist = some acc.config.name := by
  have heq := handleSwitchSet_explicit_eq env st idx acc z ha hz h1 h2
  have hcalls :
      ((((jsSplit ',' z).map jsTrim).drop 1).map
          fun zone => ApiCall.join zone (coordinatorOf acc.config.Zones)) ++
        playbackCalls (coordinatorOf acc.config.Zones) acc.config =
      ((pre.map fun r => ApiCall.join r (coordinatorOf acc.config.Zones)) ++
        ApiCall.join m (coordinatorOf acc.config.Zones) ::
          ((post.map fun r => ApiCall.join r (coordinatorOf acc.config.Zones)) ++
            playbackCalls (coordinatorOf acc.config.Zones) acc.config)) := by
    rw [hmem]
    simp [List.map_append]
  have hpre' : ∀ x ∈ pre.map fun r => ApiCall.join r (coordinatorOf acc.config.Zones),
      env.oracle x = true := by
    intro x hx
    obtain ⟨r, hr, rfl⟩ := List.mem_map.mp hx
    exact hpre r hr
  have hrun := runCalls_fail env
    (pre.map fun r => ApiCall.join r (coordinatorOf acc.config.Zones))
    (ApiCall.join m (coordinatorOf acc.config.Zones))
    ((post.map fun r => ApiCall.join r (coordinatorOf acc.config.Zones)) ++
      playbackCalls (coordinatorOf acc.config.Zones) acc.config)
    hpre' hm
  refine ⟨?_, ?_, ?_⟩
  · rw [setSwitch_events_eq env st name true idx hf, heq]
    simp only [hcalls, hrun]
    rw [httpCalls_append, httpCalls_notifyOthers, httpCalls_map_httpGet]
    simp
  · rw [setSwitch_error_eq env st name true idx hf, heq]
    simp only [hcalls, hrun]
    simp
  · rw [setSwitch_activePlaylist_eq env st name true idx hf,
      handleSwitchSet_true_state env st idx acc ha]

theorem c2_join_failure_fail_fast_witness :
    findSwitchIdx "MyList" stMy.accessories = some 0 ∧
    ((jsSplit ',' "Bedroom,Kitchen,Office,Den").map jsTrim).drop 1 =
      ["Kitchen"] ++ "Office" :: ["Den"] ∧
    (httpCalls (setSwitch envJoinOfficeFails stMy "MyList" true).events =
      (["Kitchen"].map fun r => ApiCall.join r (coordinatorOf cfgMy.Zones)) ++
        [ApiCall.join "Office" (coordinatorOf cfgMy.Zones)] ∧
    (setSwitch envJoinOfficeFails stMy "MyList" true).error =
      some (SwitchError.ExternalCallFailed
        (ApiCall.join "Office" (coordinatorOf cfgMy.Zones))) ∧
    (setSwitch envJoinOfficeFails stMy "MyList" true).state.activePlaylist =
      some cfgMy.name) :=
  ⟨by decide, by decide,
    c2_join_failure_fail_fast envJoinOfficeFails stMy "MyList" 0
      { config := cfgMy, isOn := false } "Bedroom,Kitchen,Office,Den"
      ["Kitchen"] "Office" ["Den"]
      (by decide) (by decide) (by decide) (by decide) (by decide) (by decide)
      (by decide) (by decide)⟩

/-- C5 counterexample: when the `/zones` response contains a group
coordinated by `Bedroom` with member room `Den`, the claim's membership rule
("every room whose name differs from the coordinator") yields `[Den]` and
demands a join `Den→Bedroom` — but the completed, successful activation
issues no join at all, because the code reads only each group's
`coordinator.roomName`. -/
theorem c5_counterexample :
    membersPerClaim envDen.zonesData (coordinatorOf cfgB.Zones) = ["Den"] ∧
    joinCallsOf (setSwitch envDen stAB "B" true).events = [] ∧
    (setSwitch envDen stAB "B" true).error = none ∧
    joinCallsOf (setSwitch envDen stAB "B" true).events ≠
      (membersPerClaim envDen.zonesData (coordinatorOf cfgB.Zones)).map
        fun r => ApiCall.join r (coordinatorOf cfgB.Zones) := by
  decide

/-- C5 (amended): when a switch's zones spec is the ALL sentinel or absent,
activation queries `GET /zones` and the membership list is each group's
*coordinator* room name (not every room of the response), in API-returned
order, filtered to those differing from the switch's coordinator; each is
joined to the coordinator before the three playback calls.  In particular,
when `/zones` returns groups coordinated by `Bedroom` and `Office` and the
coordinator is `Bedroom`, exactly one join `Office→Bedroom` is issued before
the playback calls (see the witness). -/
theorem c5_all_sentinel_joins_group_coordinators (env : Env) (st : PlatformState)
    (name : String) (idx : Nat) (acc : Accessory)
    (hf : findSwitchIdx name st.accessories = some idx)
    (ha : st.accessories[idx]? = some acc)
    (hz : acc.config.Zones = none ∨ acc.config.Zones = some "ALL")
    (hok : ∀ c, env.oracle c = true) :
    httpCalls (setSwitch env st name true).events =
      ApiCall.zones ::
        (((env.zonesData.map fun g => g.coordinator.roomName).filter
            fun r => r ≠ coordinatorOf acc.config.Zones).map
          fun zone => ApiCall.join zone (coordinatorOf acc.config.Zones)) ++
        [ApiCall.spotifyNow (coordinatorOf acc.config.Zones) acc.config.SpotifyPlaylistID,
         ApiCall.shuffle (coordinatorOf acc.config.Zones) acc.config.shuffle,
         ApiCall.repeatCall (coordinatorOf acc.config.Zones) acc.config.repeatMode] ∧
    (setSwitch env st name true).error = none := by
  have heq := handleSwitchSet_all_eq env st idx acc ha
    (hz.elim Or.inl fun h => Or.inr (Or.inr h))
  have hrun := runCalls_all_ok env
    ((((env.zonesData.map fun g => g.coordinator.roomName).filter
        fun r => r ≠ coordinatorOf acc.config.Zones).map
      fun zone => ApiCall.join zone (coordinatorOf acc.config.Zones)) ++
      playbackCalls (coordinatorOf acc.config.Zones) acc.config)
    (fun c _ => hok c)
  constructor
  · rw [setSwitch_events_eq env st name true idx hf, heq]
    unfold allZonesActivate
    rw [if_pos (hok ApiCall.zones)]
    simp only [hrun]
    rw [httpCalls_append]
    rw [httpCalls_notifyOthers]
    simp only [httpCalls, List.filterMap_cons]
    rw [← httpCalls, httpCalls_map_httpGet]
    simp [playbackCalls]
  · rw [setSwitch_error_eq env st name true idx hf, heq]
    unfold allZonesActivate
    rw [if_pos (hok ApiCall.zones)]
    simp only [hrun]
    rfl

theorem c5_all_sentinel_joins_group_coordinators_witness :
    findSwitchIdx "B" stAB.accessories = some 1 ∧
    cfgB.Zones = none ∧
    coordinatorOf cfgB.Zones = "Bedroom" ∧
    envAllOk.zonesData.map (fun g => g.coordinator.roomName) = ["Bedroom", "Office"] ∧
    httpCalls (setSwitch envAllOk stAB "B" true).events =
      [ApiCall.zones, ApiCall.join "Office" "Bedroom",
       ApiCall.spotifyNow "Bedroom" "pid2", ApiCall.shuffle "Bedroom" "off",
       ApiCall.repeatCall "Bedroom" "off"] ∧
    (setSwitch envAllOk stAB "B" true).error = none := by
  refine ⟨by decide, by decide, by decide, by decide, ?_⟩
  have h := c5_all_sentinel_joins_group_coordinators envAllOk stAB "B" 1
    { config := cfgB, isOn := false }
    (by decide) (by decide) (Or.inl (by decide)) (fun c => rfl)
  refine ⟨?_, h.2⟩
  rw [h.1]
  decide

/-- C6: when a switch is activated while another switch A is on, A's `isOn`
is flipped to false and the `updateValue` state-change notification for A is
emitted before any external HTTP call of the activation: the trace is the
`updateValue(false)` notifications for every other registered accessory
followed only by HTTP events, and every other accessory's `isOn` is false in
the resulting state. -/
theorem c6_notifications_before_http (env : Env) (st : PlatformState)
    (name : String) (idx : Nat) (acc : Accessory)
    (hf : findSwitchIdx name st.accessories = some idx)
    (ha : st.accessories[idx]? = some acc) :
    ∃ post,
      (setSwitch env st name true).events =
          notifyOthers st.accessories.length idx ++ post ∧
      (∀ e ∈ notifyOthers st.accessories.length idx, e.isHttp = false) ∧
      (∀ e ∈ post, e.isHttp = true) ∧
      (∀ j, j < st.accessories.length → j ≠ idx →
        Event.updateValue j false ∈ notifyOthers st.accessories.length idx) ∧
      (∀ j a2, j ≠ idx →
        (setSwitch env st name true).state.accessories[j]? = some a2 →
        a2.isOn = false) := by
  obtain ⟨post, hpost, hhttp⟩ := handleSwitchSet_true_events_shape env st idx acc ha
  refine ⟨post, ?_, notifyOthers_not_http _ _, hhttp,
    fun j hj hne => updateValue_mem_notifyOthers hj hne, ?_⟩
  · rw [setSwitch_events_eq env st name true idx hf]
    exact hpost
  · intro j a2 hne hj
    have haccs : (setSwitch env st name true).state.accessories[j]? =
        st.accessories[j]?.map fun a => { a with isOn := false } := by
      rcases setSwitch_state_cases env st name true idx hf with ⟨hs, -⟩ | ⟨hs, -⟩
      · rw [hs, handleSwitchSet_true_state env st idx acc ha]
        exact flipOthers_getElem?_ne _ _ _ hne
      · rw [hs]
        show (setIsOn (handleSwitchSet env st idx true).state.accessories idx true)[j]? = _
        rw [setIsOn_getElem?_ne _ _ _ _ hne,
          handleSwitchSet_true_state env st idx acc ha]
        exact flipOthers_getElem?_ne _ _ _ hne
    rw [haccs] at hj
    obtain ⟨a1, -, ha2⟩ := Option.map_eq_some'.mp hj
    rw [← ha2]

theorem c6_notifications_before_http_witness :
    findSwitchIdx "A" stBActive.accessories = some 0 ∧
    stBActive.accessories[1]? = some { config := cfgB, isOn := true } ∧
    (∃ post,
      (setSwitch envAllOk stBActive "A" true).events =
          notifyOthers stBActive.accessories.length 0 ++ post ∧
      (∀ e ∈ notifyOthers stBActive.accessories.length 0, e.isHttp = false) ∧
      (∀ e ∈ post, e.isHttp = true) ∧
      (∀ j, j < stBActive.accessories.length → j ≠ 0 →
        Event.updateValue j false ∈ notifyOthers stBActive.accessories.length 0) ∧
      (∀ j a2, j ≠ 0 →
        (setSwitch envAllOk stBActive "A" true).state.accessories[j]? = some a2 →
        a2.isOn = false)) :=
  ⟨by decide, by decide,
    c6_notifications_before_http envAllOk stBActive "A" 0
      { config := cfgA, isOn := false } (by decide) (by decide)⟩

theorem activation_calls_target (coordinator : String) (config : PlaylistConfig)
    (members : List String) :
    ∀ c ∈ (members.map fun zone => ApiCall.join zone coordinator) ++
        playbackCalls coordinator config,
      c.targetCoordinator = some coordinator := by
  intro c hc
  rcases List.mem_append.mp hc with h | h
  · exact join_calls_target coordinator members c h
  · exact playbackCalls_target coordinator config c h

/-- C8: for every switch, every HTTP call issued by `setSwitch` (activation
or deactivation, success or failure) addresses either no coordinator
(`GET /zones`) or the coordinator resolved from that switch's zones spec;
and that coordinator is the first comma-field of the zones spec, trimmed,
falling back to the fixed room `"Bedroom"` when the spec is empty or unset. -/
theorem c8_coordinator_resolution (env : Env) (st : PlatformState)
    (name : String) (idx : Nat) (acc : Accessory) (value : Bool)
    (hf : findSwitchIdx name st.accessories = some idx)
    (ha : st.accessories[idx]? = some acc) :
    (∀ c ∈ httpCalls (setSwitch env st name value).events,
      c.targetCoordinator = none ∨
      c.targetCoordinator = some (coordinatorOf acc.config.Zones)) ∧
    coordinatorOf none = "Bedroom" ∧
    coordinatorOf (some "") = "Bedroom" ∧
    ∀ z h0, (jsSplit ',' z).head? = some h0 → z ≠ "" → h0 ≠ "" →
      coordinatorOf (some z) = jsTrim h0 := by
  refine ⟨?_, rfl, by decide, ?_⟩
  · intro c hc
    rw [setSwitch_events_eq env st name value idx hf, mem_httpCalls] at hc
    cases value with
    | false =>
      rw [handleSwitchSet_false_events env st idx acc ha] at hc
      have : c = ApiCall.pause (coordinatorOf acc.config.Zones) := by
        simpa using hc
      right
      rw [this]
      rfl
    | true =>
      rcases hzc : acc.config.Zones with _ | z
      · have heq := handleSwitchSet_all_eq env st idx acc ha (Or.inl hzc)
        rw [heq] at hc
        unfold allZonesActivate at hc
        by_cases ho : env.oracle ApiCall.zones = true
        · rw [if_pos ho] at hc
          simp only [List.mem_append, List.mem_cons] at hc
          rcases hc with hn | hz0 | hr
          · exact absurd (notifyOthers_not_http _ _ _ hn) (by simp [Event.isHttp])
          · left
            have : c = ApiCall.zones := by simpa using hz0
            rw [this]
            rfl
          · obtain ⟨d, hd, hdc⟩ := runCalls_events_mem env _ _ hr
            have hcd : c = d := by simpa using hdc
            rw [hzc] at hd
            right
            rw [hcd]
            exact activation_calls_target _ _ _ d hd
        · rw [if_neg ho] at hc
          simp only [List.mem_append, List.mem_singleton] at hc
          rcases hc with hn | hz0
          · exact absurd (notifyOthers_not_http _ _ _ hn) (by simp [Event.isHttp])
          · left
            have : c = ApiCall.zones := by simpa using hz0
            rw [this]
            rfl
      · by_cases h12 : z ≠ "" ∧ z ≠ "ALL"
        · have heq := handleSwitchSet_explicit_eq env st idx acc z ha hzc h12.1 h12.2
          rw [heq] at hc
          simp only [List.mem_append] at hc
          rcases hc with hn | hr
          · exact absurd (notifyOthers_not_http _ _ _ hn) (by simp [Event.isHttp])
          · obtain ⟨d, hd, hdc⟩ := runCalls_events_mem env _ _ hr
            have hcd : c = d := by simpa using hdc
            rw [hzc] at hd
            right
            rw [hcd]
            exact activation_calls_target _ _ _ d hd
        · have hz2 : acc.config.Zones = some "" ∨ acc.config.Zones = some "ALL" := by
            rcases Decidable.not_and_iff_or_not.mp h12 with h | h
            · left
              rw [hzc, Decidable.not_not.mp h]
            · right
              rw [hzc, Decidable.not_not.mp h]
          have heq := handleSwitchSet_all_eq env st idx acc ha (Or.inr hz2)
          rw [heq] at hc
          unfold allZonesActivate at hc
          by_cases ho : env.oracle ApiCall.zones = true
          · rw [if_pos ho] at hc
            simp only [List.mem_append, List.mem_cons] at hc
            rcases hc with hn | hz0 | hr
            · exact absurd (notifyOthers_not_http _ _ _ hn) (by simp [Event.isHttp])
            · left
              have : c = ApiCall.zones := by simpa using hz0
              rw [this]
              rfl
            · obtain ⟨d, hd, hdc⟩ := runCalls_events_mem env _ _ hr
              have hcd : c = d := by simpa using hdc
              rw [hzc] at hd
              right
              rw [hcd]
              exact activation_calls_target _ _ _ d hd
          · rw [if_neg ho] at hc
            simp only [List.mem_append, List.mem_singleton] at hc
            rcases hc with hn | hz0
            · exact absurd (notifyOthers_not_http _ _ _ hn) (by simp [Event.isHttp])
            · left
              have : c = ApiCall.zones := by simpa using hz0
              rw [this]
              rfl
  · intro z h0 hh hz0 hh0
    simp only [coordinatorOf, if_neg hz0, hh]
    rw [if_neg hh0]

theorem c8_coordinator_resolution_witness :
    findSwitchIdx "A" stAB.accessories = some 0 ∧
    ((∀ c ∈ httpCalls (setSwitch envAllOk stAB "A" true).events,
      c.targetCoordinator = none ∨
      c.targetCoordinator = some (coordinatorOf cfgA.Zones)) ∧
    coordinatorOf none = "Bedroom" ∧
    coordinatorOf (some "") = "Bedroom" ∧
    ∀ z h0, (jsSplit ',' z).head? = some h0 → z ≠ "" → h0 ≠ "" →
      coordinatorOf (some z) = jsTrim h0) :=
  ⟨by decide,
    c8_coordinator_resolution envAllOk stAB "A" 0
      { config := cfgA, isOn := false } true (by decide) (by decide)⟩

/-- C9 counterexample: the playlist-id segment is interpolated verbatim —
for the playlist id `"a b"` the issued path keeps the raw space while the
claim's fully-encoded path would contain `%20`, so not every path segment is
URL-encoded. -/
theorem c9_counterexample :
    (ApiCall.spotifyNow "Bedroom" "a b").path ≠
      ApiCall.pathAllEncoded (ApiCall.spotifyNow "Bedroom" "a b") ∧
    (ApiCall.spotifyNow "Bedroom" "a b").path = "/Bedroom/spotify/now/a b" ∧
    ApiCall.pathAllEncoded (ApiCall.spotifyNow "Bedroom" "a b") =
      "/Bedroom/spotify/now/a%20b" := by
  decide

/-- C9 (amended): the room-name and coordinator path segments are
URL-encoded (`encodeURIComponent`) before being placed into the request
path, but the playlist-id, shuffle-mode and repeat-mode segments are
interpolated verbatim — so a request path coincides with its fully-encoded
form exactly when encoding leaves those verbatim values unchanged. -/
theorem c9_partial_url_encoding (room coord pid sh rp : String)
    (hpid : encodeURIComponent pid = pid)
    (hsh : encodeURIComponent sh = sh)
    (hrp : encodeURIComponent rp = rp) :
    (ApiCall.join room coord).path = (ApiCall.join room coord).pathAllEncoded ∧
    ApiCall.zones.path = ApiCall.zones.pathAllEncoded ∧
    (ApiCall.pause coord).path = (ApiCall.pause coord).pathAllEncoded ∧
    (ApiCall.spotifyNow coord pid).path =
      (ApiCall.spotifyNow coord pid).pathAllEncoded ∧
    (ApiCall.shuffle coord sh).path = (ApiCall.shuffle coord sh).pathAllEncoded ∧
    (ApiCall.repeatCall coord rp).path =
      (ApiCall.repeatCall coord rp).pathAllEncoded := by
  refine ⟨rfl, rfl, rfl, ?_, ?_, ?_⟩ <;>
    simp [ApiCall.path, ApiCall.pathAllEncoded, hpid, hsh, hrp]

theorem c9_partial_url_encoding_witness :
    encodeURIComponent "pid1" = "pid1" ∧
    encodeURIComponent "off" = "off" ∧
    encodeURIComponent "all" = "all" ∧
    ((ApiCall.join "Kitchen" "Bedroom").path =
      (ApiCall.join "Kitchen" "Bedroom").pathAllEncoded ∧
    ApiCall.zones.path = ApiCall.zones.pathAllEncoded ∧
    (ApiCall.pause "Bedroom").path = (ApiCall.pause "Bedroom").pathAllEncoded ∧
    (ApiCall.spotifyNow "Bedroom" "pid1").path =
      (ApiCall.spotifyNow "Bedroom" "pid1").pathAllEncoded ∧
    (ApiCall.shuffle "Bedroom" "off").path =
      (ApiCall.shuffle "Bedroom" "off").pathAllEncoded ∧
    (ApiCall.repeatCall "Bedroom" "all").path =
      (ApiCall.repeatCall "Bedroom" "all").pathAllEncoded) :=
  ⟨by decide, by decide, by decide,
    c9_partial_url_encoding "Kitchen" "Bedroom" "pid1" "off" "all"
      (by decide) (by decide) (by decide)⟩

end SonosSpotify
